import Mathlib

/-!
Verification model of the daas-sdk crate (dsietz/daas-sdk).

The Rust sources are shallowly embedded:

* `src/doc.rs` — the `DaaSDoc` document model, its identifier builder
  `make_id`, and its `serialize` / `from_serialized` pair.  The crate
  delegates serialization to `serde_json`; the JSON data model and the
  compact rendering / parsing that `serde_json::to_string` /
  `serde_json::from_str` perform on the derived `Serialize` /
  `Deserialize` impls are embedded below (`Json`, `renderJ`, `parseVal`).
  JSON numbers are modelled as exact integers (`Int`): every numeric field
  of `DaaSDoc` is an unsigned integer in the source, and floating-point
  payload literals are outside the model.  The parser accepts the compact
  form that `serde_json::to_string` emits (serde's parser additionally
  skips inter-token whitespace, which `to_string` never produces).
* `src/storage/local.rs` — the `LocalStorage` store over an explicit
  file-system state (`FS`).  Rust `panic`s (out-of-range indexing,
  `unwrap` of `None`) are modelled as `none` results.
* `src/eventing/broker.rs` — the Kafka delivery loop over an environment
  recording what each metadata load reports.
* `src/service/processor.rs` — the consumer poll loop over a list of
  messages.

Rust strings are Lean `String`s; in Lean 4.14 a `String` is a packed
`List Char`, and UTF-8 byte-wise ordering of Rust `str` coincides with
code-point lexicographic ordering of the character list.  String
operations the source uses (`split`, `parse::<usize>`, ordering) are
embedded as structural functions over `List Char` so that every
definition evaluates by kernel reduction.
-/

/-! ### Characters, digits and decimal numerals -/

/-- Decimal digit test, `'0' ≤ c ≤ '9'` (code points 48–57). -/
def isDigit (c : Char) : Bool := 48 ≤ c.toNat && c.toNat ≤ 57

/-- The digit character for `k < 10` (`'0'` has code point 48). -/
def digitChar (k : Nat) : Char := Char.ofNat (48 + k)

/-- Decimal digits of `n`, most significant first, prepended to `acc`.
The `fuel` argument only makes the recursion structural; `fuel = n + 1`
always suffices. -/
def natDigitsGo : Nat → Nat → List Char → List Char
  | 0, _, acc => acc
  | fuel + 1, n, acc =>
    if n < 10 then digitChar n :: acc
    else natDigitsGo fuel (n / 10) (digitChar (n % 10) :: acc)

/-- Decimal numeral of `n` as characters (what Rust's `usize`/`u64`
`Display` and `serde_json` emit for an unsigned integer). -/
def natDigits (n : Nat) : List Char := natDigitsGo (n + 1) n []

/-- Decimal numeral of an integer: a `'-'` sign for negatives, then the
digits of the absolute value (Rust `i64` `Display` / `serde_json`). -/
def intChars (i : Int) : List Char :=
  (if i < 0 then ['-'] else []) ++ natDigits i.natAbs

/-- Value of a digit string, most significant digit first. -/
def digitsToNat (ds : List Char) : Nat :=
  ds.foldl (fun a c => a * 10 + (c.toNat - 48)) 0

/-- Longest digit prefix of the input, with the rest of the input. -/
def takeDigits : List Char → List Char × List Char
  | [] => ([], [])
  | c :: cs =>
    if isDigit c then
      let p := takeDigits cs
      (c :: p.1, p.2)
    else ([], c :: cs)

/-- Rust `str::parse::<usize>` on the strings this crate feeds it: a
non-empty all-digit string parses to its value, anything else is an
error (`none`).  (Rust also accepts a leading `'+'`, which no caller in
the crate can produce.) -/
def parseUsize (s : String) : Option Nat :=
  if s.data ≠ [] ∧ s.data.all isDigit then some (digitsToNat s.data) else none

/-! ### Splitting and ordering strings -/

/-- Rust `str::split` with a one-character pattern, over the character
list.  Always returns at least one (possibly empty) piece. -/
def splitChar (sep : Char) : List Char → List (List Char)
  | [] => [[]]
  | c :: cs =>
    let r := splitChar sep cs
    if c = sep then [] :: r
    else
      match r with
      | [] => [[c]]
      | g :: gs => (c :: g) :: gs

/-- Rust `str::split(sep).collect::<Vec<_>>()` for the one-character
separators (`"~"`, `"|"`) this crate uses. -/
def rustSplit (s : String) (sep : Char) : List String :=
  (splitChar sep s.data).map String.mk

/-- Strict lexicographic order on character lists by code point — the
order Rust's byte-wise `str`/`OsStr` comparison induces (UTF-8 byte
order agrees with code-point order). -/
def charsLt : List Char → List Char → Bool
  | [], [] => false
  | [], _ :: _ => true
  | _ :: _, [] => false
  | a :: as_, b :: bs =>
    if a.toNat < b.toNat then true
    else if b.toNat < a.toNat then false
    else charsLt as_ bs

/-- Strict lexicographic order on strings (Rust `str` `Ord`). -/
def strLt (a b : String) : Bool := charsLt a.data b.data

/-- The maximum of a list of strings under `strLt` — the element that
`sort` followed by `pop` selects in `LocalStorage::latest_rev`
(`src/storage/local.rs` lines 319–322); `none` on the empty list, where
the source's `pop().unwrap()` panics. -/
def strMax : List String → Option String
  | [] => none
  | s :: rest =>
    match strMax rest with
    | none => some s
    | some m => some (if strLt m s then s else m)

/-! ### The JSON data model (`serde_json::Value`, integer numerals) -/

/-- A JSON value as `serde_json` models it, with numbers restricted to
exact integers (all numeric fields of `DaaSDoc` are unsigned integers). -/
inductive Json where
  | null
  | bool (b : Bool)
  | num (n : Int)
  | str (s : String)
  | arr (elems : List Json)
  | obj (members : List (String × Json))

/-- Hexadecimal digit character (lowercase, as `serde_json` emits). -/
def hexDigit (k : Nat) : Char :=
  if k < 10 then digitChar k else Char.ofNat (87 + k)

/-- One character of a JSON string, escaped exactly as
`serde_json::to_string` escapes it: `"` and `\` get a backslash, the
five named control characters use their short escapes, the remaining
control characters (code points below 32) become `\u00XX`, and every
other character is emitted as itself. -/
def escapeChar (c : Char) : List Char :=
  if c = '"' then ['\\', '"']
  else if c = '\\' then ['\\', '\\']
  else if c = '\x08' then ['\\', 'b']
  else if c = '\t' then ['\\', 't']
  else if c = '\n' then ['\\', 'n']
  else if c = '\x0c' then ['\\', 'f']
  else if c = '\r' then ['\\', 'r']
  else if c.toNat < 32 then
    ['\\', 'u', '0', '0', hexDigit (c.toNat / 16), hexDigit (c.toNat % 16)]
  else [c]

/-- JSON-escape a whole character list. -/
def escapeList : List Char → List Char
  | [] => []
  | c :: cs => escapeChar c ++ escapeList cs

mutual
/-- Compact JSON rendering — character for character what
`serde_json::to_string` produces on the corresponding `Value`. -/
def renderJ : Json → List Char
  | .null => "null".data
  | .bool true => "true".data
  | .bool false => "false".data
  | .num i => intChars i
  | .str s => '"' :: (escapeList s.data ++ ['"'])
  | .arr [] => ['[', ']']
  | .arr (e :: es) => '[' :: (renderJ e ++ (renderItemsRest es ++ [']']))
  | .obj [] => ['{', '}']
  | .obj (f :: fs) => '{' :: (renderField f ++ (renderFieldsRest fs ++ ['}']))
/-- Later array elements, each preceded by a comma. -/
def renderItemsRest : List Json → List Char
  | [] => []
  | e :: es => ',' :: (renderJ e ++ renderItemsRest es)
/-- One object member: quoted escaped key, colon, value. -/
def renderField : String × Json → List Char
  | (k, v) => '"' :: (escapeList k.data ++ ('"' :: ':' :: renderJ v))
/-- Later object members, each preceded by a comma. -/
def renderFieldsRest : List (String × Json) → List Char
  | [] => []
  | f :: fs => ',' :: (renderField f ++ renderFieldsRest fs)
end

/-! ### The JSON parser (`serde_json::from_str` on compact input) -/

/-- Value of a JSON short escape character, if it is one. -/
def unescapeChar (e : Char) : Option Char :=
  if e = '"' then some '"'
  else if e = '\\' then some '\\'
  else if e = '/' then some '/'
  else if e = 'b' then some '\x08'
  else if e = 'f' then some '\x0c'
  else if e = 'n' then some '\n'
  else if e = 'r' then some '\r'
  else if e = 't' then some '\t'
  else none

/-- Value of one hexadecimal digit character. -/
def hexVal (c : Char) : Option Nat :=
  if isDigit c then some (c.toNat - 48)
  else if 97 ≤ c.toNat ∧ c.toNat ≤ 102 then some (c.toNat - 87)
  else if 65 ≤ c.toNat ∧ c.toNat ≤ 70 then some (c.toNat - 55)
  else none

/-- Parse the body of a JSON string after its opening quote,
accumulating decoded characters in reverse. -/
def parseStrAux : List Char → List Char → Option (List Char × List Char)
  | _, [] => none
  | acc, c :: r =>
    if c = '"' then some (acc.reverse, r)
    else if c = '\\' then
      match r with
      | [] => none
      | e :: r' =>
        if e = 'u' then
          match r' with
          | a :: b :: c2 :: d :: r'' =>
            match hexVal a, hexVal b, hexVal c2, hexVal d with
            | some va, some vb, some vc, some vd =>
              parseStrAux (Char.ofNat (((va * 16 + vb) * 16 + vc) * 16 + vd) :: acc) r''
            | _, _, _, _ => none
          | _ => none
        else
          match unescapeChar e with
          | some ch => parseStrAux (ch :: acc) r'
          | none => none
    else parseStrAux (c :: acc) r

/-- Parse a JSON integer numeral: an optional minus sign, then a
non-empty digit run. -/
def parseNum (cs : List Char) : Option (Int × List Char) :=
  if cs.head? = some '-' then
    let p := takeDigits cs.tail
    if p.1.isEmpty then none else some (-(digitsToNat p.1 : Int), p.2)
  else
    let p := takeDigits cs
    if p.1.isEmpty then none else some ((digitsToNat p.1 : Int), p.2)

mutual
/-- Parse one JSON value.  `fuel` only makes the mutual recursion
structural; any fuel of at least the input length suffices. -/
def parseVal : Nat → List Char → Option (Json × List Char)
  | 0, _ => none
  | _ + 1, [] => none
  | fuel + 1, c :: r =>
    if c = 'n' then
      match r with
      | 'u' :: 'l' :: 'l' :: r' => some (.null, r')
      | _ => none
    else if c = 't' then
      match r with
      | 'r' :: 'u' :: 'e' :: r' => some (.bool true, r')
      | _ => none
    else if c = 'f' then
      match r with
      | 'a' :: 'l' :: 's' :: 'e' :: r' => some (.bool false, r')
      | _ => none
    else if c = '"' then
      match parseStrAux [] r with
      | some (cs, r') => some (.str (String.mk cs), r')
      | none => none
    else if c = '[' then
      if r.head? = some ']' then some (.arr [], r.tail)
      else
        match parseItems fuel r with
        | some (es, r') => some (.arr es, r')
        | none => none
    else if c = '{' then
      if r.head? = some '}' then some (.obj [], r.tail)
      else
        match parseFields fuel r with
        | some (fs, r') => some (.obj fs, r')
        | none => none
    else if c = '-' ∨ isDigit c then
      match parseNum (c :: r) with
      | some (i, r') => some (.num i, r')
      | none => none
    else none
/-- Parse one or more comma-separated array elements and the closing
bracket. -/
def parseItems : Nat → List Char → Option (List Json × List Char)
  | 0, _ => none
  | fuel + 1, cs =>
    match parseVal fuel cs with
    | none => none
    | some (v, r) =>
      match r with
      | ']' :: r' => some ([v], r')
      | ',' :: r' =>
        match parseItems fuel r' with
        | some (vs, r'') => some (v :: vs, r'')
        | none => none
      | _ => none
/-- Parse one or more comma-separated object members and the closing
brace. -/
def parseFields : Nat → List Char → Option (List (String × Json) × List Char)
  | 0, _ => none
  | fuel + 1, cs =>
    match cs with
    | '"' :: r =>
      match parseStrAux [] r with
      | none => none
      | some (kcs, r1) =>
        match r1 with
        | ':' :: r2 =>
          match parseVal fuel r2 with
          | none => none
          | some (v, r3) =>
            match r3 with
            | '}' :: r4 => some ([(String.mk kcs, v)], r4)
            | ',' :: r4 =>
              match parseFields fuel r4 with
              | some (fs, r5) => some ((String.mk kcs, v) :: fs, r5)
              | none => none
            | _ => none
        | _ => none
    | _ => none
end

/-- Parse a complete JSON document: one value consuming the whole
input (`serde_json::from_str` rejects trailing input). -/
def parseJson (s : String) : Option Json :=
  match parseVal (s.data.length + 1) s.data with
  | some (j, []) => some j
  | _ => none

/-! ### The document model (`src/doc.rs`) -/

/-- A data usage agreement (`pbd::dua::DUA`, external crate): the three
fields visible in its serialized form. -/
structure DUA where
  agreement_name : String
  location : String
  agreed_dtm : Nat
deriving DecidableEq, Repr

/-- The DaaS document (`src/doc.rs` lines 83–111), with `data_obj:
serde_json::Value` as the `Json` model and the integer fields
(`source_uid: usize`, `last_updated: u64`) as `Nat`. -/
structure DaaSDoc where
  _id : String
  _rev : Option String
  source_name : String
  source_uid : Nat
  category : String
  subcategory : String
  author : String
  process_ind : Bool
  last_updated : Nat
  data_usage_agreements : List DUA
  meta_data : List (String × String)
  tags : List String
  data_obj : Json

/-- `DaaSDoc::DELIMITER` (`src/doc.rs` line 140): the pipe. -/
def DaaSDoc.DELIMITER : String := "|"

/-- `DaaSDoc::make_id` (`src/doc.rs` lines 467–469): the four identity
components joined by `DaaSDoc::DELIMITER`, in the order category,
subcategory, source name, source uid. -/
def DaaSDoc.make_id (cat subcat src_name : String) (src_uid : Nat) : String :=
  cat ++ DaaSDoc.DELIMITER ++ subcat ++ DaaSDoc.DELIMITER ++ src_name ++
    DaaSDoc.DELIMITER ++ toString src_uid

/-- `DaaSDoc::new` (`src/doc.rs` lines 183–199).  The source reads the
clock for `last_updated` (`get_unix_now!()`); the model takes that
reading as the explicit argument `now`. -/
def DaaSDoc.new (src_name : String) (src_uid : Nat) (cat subcat auth : String)
    (duas : List DUA) (data : Json) (now : Nat) : DaaSDoc :=
  { _id := DaaSDoc.make_id cat subcat src_name src_uid
    _rev := none
    source_name := src_name
    source_uid := src_uid
    category := cat
    subcategory := subcat
    author := auth
    process_ind := false
    last_updated := now
    data_usage_agreements := duas
    meta_data := []
    tags := []
    data_obj := data }

/-- The JSON value `serde_json` produces for a `DUA` (derived
`Serialize`: fields in declaration order). -/
def encodeDUA (d : DUA) : Json :=
  .obj [("agreement_name", .str d.agreement_name),
        ("location", .str d.location),
        ("agreed_dtm", .num d.agreed_dtm)]

/-- The JSON value `serde_json` produces for a `DaaSDoc` (derived
`Serialize`: fields in declaration order; `Option` as null-or-value;
`BTreeMap` as an object over its entry list; `Vec` as an array). -/
def encodeDoc (d : DaaSDoc) : Json :=
  .obj [("_id", .str d._id),
        ("_rev", match d._rev with | none => .null | some r => .str r),
        ("source_name", .str d.source_name),
        ("source_uid", .num d.source_uid),
        ("category", .str d.category),
        ("subcategory", .str d.subcategory),
        ("author", .str d.author),
        ("process_ind", .bool d.process_ind),
        ("last_updated", .num d.last_updated),
        ("data_usage_agreements", .arr (d.data_usage_agreements.map encodeDUA)),
        ("meta_data", .obj (d.meta_data.map (fun kv => (kv.1, .str kv.2)))),
        ("tags", .arr (d.tags.map .str)),
        ("data_obj", d.data_obj)]

/-- `DaaSDoc::serialize` (`src/doc.rs` lines 503–505):
`serde_json::to_string(&self).unwrap()`. -/
def serialize (d : DaaSDoc) : String := String.mk (renderJ (encodeDoc d))

/-- First value bound to `key` in a JSON object's member list (the
derived `Deserialize` matches fields by name). -/
def jLookup (fields : List (String × Json)) (key : String) : Option Json :=
  match fields with
  | [] => none
  | (k, v) :: rest => if k = key then some v else jLookup rest key

/-- Deserialize a JSON value as a Rust `String` field. -/
def asStr : Json → Option String
  | .str s => some s
  | _ => none

/-- Deserialize a JSON value as an `Option<String>` field. -/
def asOptStr : Json → Option (Option String)
  | .null => some none
  | .str s => some (some s)
  | _ => none

/-- Deserialize a JSON value as an unsigned-integer field. -/
def asNat : Json → Option Nat
  | .num i => if i < 0 then none else some i.toNat
  | _ => none

/-- Deserialize a JSON value as a `bool` field. -/
def asBool : Json → Option Bool
  | .bool b => some b
  | _ => none

/-- Deserialize every element of a sequence in order, failing on the
first element that fails (serde's sequence deserialization). -/
def optMapM (f : α → Option β) : List α → Option (List β)
  | [] => some []
  | a :: l => do
    let b ← f a
    let r ← optMapM f l
    pure (b :: r)

/-- Derived `Deserialize` for `DUA`. -/
def decodeDUA : Json → Option DUA
  | .obj fs => do
    let a ← jLookup fs "agreement_name" >>= asStr
    let l ← jLookup fs "location" >>= asStr
    let t ← jLookup fs "agreed_dtm" >>= asNat
    pure ⟨a, l, t⟩
  | _ => none

/-- Deserialize `data_usage_agreements`. -/
def decodeDUAs : Json → Option (List DUA)
  | .arr es => optMapM decodeDUA es
  | _ => none

/-- Deserialize `meta_data` (a `BTreeMap<String, String>`). -/
def decodeMeta : Json → Option (List (String × String))
  | .obj fs => optMapM (fun kv => (asStr kv.2).map (fun v => (kv.1, v))) fs
  | _ => none

/-- Deserialize `tags`. -/
def decodeTags : Json → Option (List String)
  | .arr es => optMapM asStr es
  | _ => none

/-- Derived `Deserialize` for `DaaSDoc`: every field must be present
with the right shape, fields are matched by name. -/
def decodeDoc : Json → Option DaaSDoc
  | .obj fs => do
    let i ← jLookup fs "_id" >>= asStr
    let r ← jLookup fs "_rev" >>= asOptStr
    let sn ← jLookup fs "source_name" >>= asStr
    let su ← jLookup fs "source_uid" >>= asNat
    let c ← jLookup fs "category" >>= asStr
    let sc ← jLookup fs "subcategory" >>= asStr
    let au ← jLookup fs "author" >>= asStr
    let pind ← jLookup fs "process_ind" >>= asBool
    let lu ← jLookup fs "last_updated" >>= asNat
    let duas ← jLookup fs "data_usage_agreements" >>= decodeDUAs
    let md ← jLookup fs "meta_data" >>= decodeMeta
    let tg ← jLookup fs "tags" >>= decodeTags
    let dobj ← jLookup fs "data_obj"
    pure ⟨i, r, sn, su, c, sc, au, pind, lu, duas, md, tg, dobj⟩
  | _ => none

/-- `DaaSDoc::from_serialized` (`src/doc.rs` lines 338–340):
`serde_json::from_str`, with the serde error (and the source's
`.unwrap()` panic on it) modelled as `none`. -/
def from_serialized (s : String) : Option DaaSDoc :=
  match parseJson s with
  | some j => decodeDoc j
  | none => none

/-! ### The local store (`src/storage/local.rs`) -/

/-- `DELIMITER` (`src/lib.rs` line 21): the tilde, used by every
`LocalStorage` path computation. -/
def DELIMITER : String := "~"

/-- The file-system state the store mutates.  `dirs` holds the shard
directories that exist; `files` maps a key `(dir, name)` — standing for
the path `dir ++ "/" ++ name` — to the file's content.  Directory
listing order is the insertion order of `files`; `latest_rev` sorts the
listing itself, so only the set matters. -/
structure FS where
  dirs : List String
  files : List ((String × String) × String)
deriving DecidableEq

/-- `fs::create_dir_all` (`ensure_dir_path`, `src/storage/local.rs`
lines 219–221); only the leaf directory is tracked, which is the only
path the store ever queries with `is_dir`. -/
def FS.createDirAll (fs : FS) (d : String) : FS :=
  if fs.dirs.contains d then fs else { fs with dirs := fs.dirs ++ [d] }

/-- `Path::is_dir` on a shard directory. -/
def FS.isDir (fs : FS) (d : String) : Bool := fs.dirs.contains d

/-- `File::create` followed by `write_all`: create-or-truncate the file
at `(dir, name)`, then write `content`. -/
def FS.writeFile (fs : FS) (key : String × String) (content : String) : FS :=
  if fs.files.any (fun e => e.1 = key) then
    { fs with files := fs.files.map (fun e => if e.1 = key then (key, content) else e) }
  else { fs with files := fs.files ++ [(key, content)] }

/-- `fs::read_to_string`: `none` when the file does not exist. -/
def FS.readFile (fs : FS) (key : String × String) : Option String :=
  match fs.files.find? (fun e => e.1 = key) with
  | some e => some e.2
  | none => none

/-- `fs::read_dir`: the file names present in directory `d`. -/
def FS.readDirNames (fs : FS) (d : String) : List String :=
  fs.files.filterMap (fun e => if e.1.1 = d then some e.1.2 else none)

/-- `LocalStorage` (`src/storage/local.rs` lines 8–11). -/
structure LocalStorage where
  path : String
deriving DecidableEq

/-- `UpsertError` (`src/storage/mod.rs` line 27). -/
structure UpsertError deriving DecidableEq

/-- `RetrieveError` (`src/storage/mod.rs` line 16). -/
structure RetrieveError deriving DecidableEq

/-- `DaaSDocError` (`src/errors.rs` line 16). -/
structure DaaSDocError deriving DecidableEq

/-- Success/failure of the two fallible file operations inside one
store call: `File::create` and `write_all`. -/
structure IOEnv where
  createOk : Bool
  writeOk : Bool
deriving DecidableEq

/-- `LocalStorage::make_doc_uuid` (`src/storage/local.rs` lines
244–246). -/
def make_doc_uuid (doc_id rev : String) : String := doc_id ++ DELIMITER ++ rev

/-- `LocalStorage::get_dir_path` (`src/storage/local.rs` lines
239–242): split the uuid on `DELIMITER` and nest the first four
components under the storage root.  The source indexes `dir[1]`,
`dir[2]`, `dir[3]` without a bounds check; with fewer than four
components that indexing panics, modelled as `none`.
(`get_doc_path`, lines 233–236, is the same split with the uuid
appended, i.e. `dir ++ "/" ++ uuid` for the `dir` computed here.) -/
def LocalStorage.get_dir_path (st : LocalStorage) (doc_uuid : String) : Option String :=
  let dir := rustSplit doc_uuid '~'
  if 4 ≤ dir.length then
    some (st.path ++ "/" ++ dir.getD 0 "" ++ "/" ++ dir.getD 1 "" ++ "/" ++
      dir.getD 2 "" ++ "/" ++ dir.getD 3 "")
  else none

/-- `LocalStorage::next_rev` (`src/storage/local.rs` lines 291–307):
`"0"` for `None`, otherwise parse as `usize`, add one, print. -/
def LocalStorage.next_rev : Option String → Except DaaSDocError String
  | none => .ok "0"
  | some rev =>
    match parseUsize rev with
    | some r => .ok (toString (r + 1))
    | none => .error ⟨⟩

/-- `LocalStorage::latest_rev` (`src/storage/local.rs` lines 310–331):
if the identity's shard directory exists, sort its entries by path and
take the suffix of the greatest one after the last `DELIMITER`; if the
directory does not exist, `"0"`.  `none` models the two panics: the
unchecked indexing inside `get_dir_path`, and `pop().unwrap()` on an
existing but empty directory.  Sorting full paths and popping is the
maximum file name, since every entry shares the directory prefix. -/
def LocalStorage.latest_rev (st : LocalStorage) (fs : FS) (doc_id : String) : Option String :=
  match st.get_dir_path doc_id with
  | none => none
  | some dir_path =>
    if fs.isDir dir_path then
      match strMax (fs.readDirNames dir_path) with
      | none => none
      | some name => some ((rustSplit name '~').getLastD "")
    else some "0"

/-- The write phase of `upsert_daas_doc` (`src/storage/local.rs` lines
76–128), after the revision check: increment the revision, build the
file uuid, create the shard directory, stamp the new revision into the
document, serialize, create the file, write.  A failed `File::create`
returns `Err` (lines 111–114); a failed `write_all` is only logged and
the function still returns `Ok(doc)` (lines 122–124 fall through to
line 128), leaving the truncated (empty) file behind. -/
def LocalStorage.upsert_write (st : LocalStorage) (env : IOEnv) (fs : FS) (doc : DaaSDoc)
    (latest : String) : Option (Except UpsertError DaaSDoc × FS) :=
  match LocalStorage.next_rev (some latest) with
  | .error _ => some (.error ⟨⟩, fs)
  | .ok file_rev =>
    let file_uuid := make_doc_uuid doc._id file_rev
    match st.get_dir_path file_uuid with
    | none => none
    | some doc_dir_path =>
      let fs1 := fs.createDirAll doc_dir_path
      let doc1 := { doc with _rev := some file_rev }
      let json_doc := serialize doc1
      if env.createOk then
        some (.ok doc1, fs1.writeFile (doc_dir_path, file_uuid)
          (if env.writeOk then json_doc else ""))
      else some (.error ⟨⟩, fs1)

/-- `LocalStorage::upsert_daas_doc` (`src/storage/local.rs` lines
61–129): compute the latest revision for the document's id; if the
document carries a revision different from it, fail with
`UpsertError`; otherwise run the write phase. -/
def LocalStorage.upsert_daas_doc (st : LocalStorage) (env : IOEnv) (fs : FS) (doc : DaaSDoc) :
    Option (Except UpsertError DaaSDoc × FS) :=
  match st.latest_rev fs doc._id with
  | none => none
  | some latest =>
    match doc._rev with
    | some r =>
      if latest ≠ r then some (.error ⟨⟩, fs)
      else st.upsert_write env fs doc latest
    | none => st.upsert_write env fs doc latest

/-- Read and deserialize one stored document file (`src/storage/local.rs`
lines 162–178): a missing file or a failed deserialization is
`RetrieveError`. -/
def readDoc (fs : FS) (dir name : String) : Option (Except RetrieveError DaaSDoc) :=
  match fs.readFile (dir, name) with
  | none => some (.error ⟨⟩)
  | some content =>
    match from_serialized content with
    | some d => some (.ok d)
    | none => some (.error ⟨⟩)

/-- `LocalStorage::get_doc_by_id` (`src/storage/local.rs` lines
154–179): read the file named by the explicit revision if one is given,
else by `latest_rev`.  The file path is
`get_doc_path(doc_id) ++ DELIMITER ++ rev`, i.e. the key
`(dir, make_doc_uuid doc_id rev)`. -/
def LocalStorage.get_doc_by_id (st : LocalStorage) (fs : FS) (doc_id : String)
    (doc_rev : Option String) : Option (Except RetrieveError DaaSDoc) :=
  match st.get_dir_path doc_id with
  | none => none
  | some dir =>
    match doc_rev with
    | some r => readDoc fs dir (make_doc_uuid doc_id r)
    | none =>
      match st.latest_rev fs doc_id with
      | none => none
      | some latest => readDoc fs dir (make_doc_uuid doc_id latest)

/-- `LocalStorage::mark_doc_as_processed` (`src/storage/local.rs` lines
248–288): re-read the document by its own id and revision, set
`process_ind = true`, and overwrite the same revision file; here both a
failed `File::create` and a failed `write_all` return `Err` (lines
271–274 and 283–286). -/
def LocalStorage.mark_doc_as_processed (st : LocalStorage) (env : IOEnv) (fs : FS)
    (doc : DaaSDoc) : Option (Except UpsertError DaaSDoc × FS) :=
  match st.get_doc_by_id fs doc._id doc._rev with
  | none => none
  | some (.error _) => some (.error ⟨⟩, fs)
  | some (.ok d0) =>
    let d1 := { d0 with process_ind := true }
    match d1._rev with
    | none => none
    | some r =>
      let file_uuid := make_doc_uuid d1._id r
      match st.get_dir_path file_uuid with
      | none => none
      | some dir =>
        if env.createOk then
          if env.writeOk then some (.ok d1, fs.writeFile (dir, file_uuid) (serialize d1))
          else some (.error ⟨⟩, fs.writeFile (dir, file_uuid) "")
        else some (.error ⟨⟩, fs)

/-! ### The broker client (`src/eventing/broker.rs`) -/

/-- What each metadata load reports: `partitions i` is the number of
partitions the topic shows on the `(i+1)`-th call to
`client.load_metadata` (loads themselves are assumed to succeed, as the
claim's scenarios do). -/
structure KafkaEnv where
  partitions : Nat → Nat

/-- `kafka::producer::RequiredAcks`. -/
inductive RequiredAcks where
  | none
  | one
  | all
deriving DecidableEq

/-- The `kafka::producer::Record` passed to `producer.send`
(`src/eventing/broker.rs` lines 62–67). -/
structure KafkaRecord where
  topic : String
  partition : Int
  key : String
  value : String

/-- Exit of the metadata loop: how many loads ran, and whether a
partition was found. -/
inductive BrokerLoopExit where
  | found (loads : Nat)
  | unknown (loads : Nat)

/-- The metadata loop of `broker_message_with_client`
(`src/eventing/broker.rs` lines 35–55): increment `attempt`, load
metadata, break when the topic reports a partition, give up when
`attempt > 2` (so after the third load), else sleep a second and loop. -/
def broker_attempt_loop (env : KafkaEnv) (attempt : Nat) : BrokerLoopExit :=
  if 0 < env.partitions attempt then .found (attempt + 1)
  else if h : 2 < attempt + 1 then .unknown (attempt + 1)
  else broker_attempt_loop env (attempt + 1)
termination_by 3 - attempt
decreasing_by omega

/-- Result of `DaaSKafkaBroker::broker_message_with_client`: the
`UnknownTopicOrPartition` error, or the single record sent by the
producer built with `RequiredAcks::One` and a 1-second ack timeout. -/
inductive BrokerOutcome where
  | unknownTopic (loads : Nat)
  | sent (loads : Nat) (acks : RequiredAcks) (ackTimeoutSecs : Nat) (rec : KafkaRecord)

/-- `DaaSKafkaBroker::broker_message_with_client`
(`src/eventing/broker.rs` lines 30–70): run the metadata loop from
`attempt = 0`; on failure return `Err(Kafka(UnknownTopicOrPartition))`;
on success build a producer with a 1-second ack timeout and
`RequiredAcks::One` and send one record with `partition = -1`, the
document id as key and the serialized document as value. -/
def DaaSKafkaBroker.broker_message_with_client (env : KafkaEnv) (doc : DaaSDoc)
    (topic : String) : BrokerOutcome :=
  match broker_attempt_loop env 0 with
  | .unknown n => .unknownTopic n
  | .found n => .sent n .one 1 ⟨topic, -1, doc._id, serialize doc⟩

/-! ### The consumer poll loop (`src/service/processor.rs`) -/

/-- `DaaSProcessorMessage` (`src/service/processor.rs` lines 13–18). -/
structure DaaSProcessorMessage where
  offset : Int
  key : String
  doc : DaaSDoc
  topic : String

/-- `DaaSProcessingError` (`src/errors.rs` lines 87–92). -/
inductive DaaSProcessingError where
  | BrokerError
  | MissingAuthorError
  | RetrieveError
  | UpsertError
deriving DecidableEq

/-- One message as polled from a topic/partition. -/
structure KMessage where
  offset : Int
  key : String
  value : String

/-- One polled message set: a topic, a partition and its messages. -/
structure MessageSet where
  topic : String
  partition : Int
  messages : List KMessage

/-- Observable consumer state built by the loop body: offsets marked
consumed via `consumer.consume_message` (committed by
`commit_consumed` at the end of the poll iteration), warnings logged
for failed callbacks (with document id, topic, partition and offset, as
in the `warn!` at lines 213–218), and offsets of messages skipped
because deserialization failed. -/
structure ProcState where
  consumed : List (String × Int × Int)
  warnings : List (String × String × Int × Int)
  skipped : List Int

/-- The per-message body of `DaaSProcessor::start_listening`
(`src/service/processor.rs` lines 178–220): deserialize the value (a
failure logs and skips the message); call the callback; on `Ok` consume
exactly this message's topic, partition and offset; on `Err` log a
warning with topic/partition/offset context and consume nothing. -/
def DaaSProcessor.handle_message
    (callback : DaaSProcessorMessage → Except DaaSProcessingError Int)
    (ms : MessageSet) (st : ProcState) (m : KMessage) : ProcState :=
  match from_serialized m.value with
  | none => { st with skipped := st.skipped ++ [m.offset] }
  | some document =>
    match callback ⟨m.offset, m.key, document, ms.topic⟩ with
    | .ok _ => { st with consumed := st.consumed ++ [(ms.topic, ms.partition, m.offset)] }
    | .error _ =>
      { st with warnings := st.warnings ++ [(document._id, ms.topic, ms.partition, m.offset)] }

/-- The inner message loop of `start_listening` over one message set
(`for message in messageset.messages()`): fold the per-message body
over the messages in order. -/
def DaaSProcessor.process_messages
    (callback : DaaSProcessorMessage → Except DaaSProcessingError Int)
    (ms : MessageSet) (st : ProcState) : List KMessage → ProcState
  | [] => st
  | m :: rest =>
    DaaSProcessor.process_messages callback ms
      (DaaSProcessor.handle_message callback ms st m) rest

/-- No digit at the head of the character list — the condition under
which a numeral followed by that list parses back exactly. -/
def noDigitHead : List Char → Prop
  | [] => True
  | c :: _ => isDigit c = false

mutual
/-- Fuel needed by `parseVal` on a rendered value. -/
def jsizeJ : Json → Nat
  | .null => 1
  | .bool _ => 1
  | .num _ => 1
  | .str _ => 1
  | .arr es => 1 + jsizeItems es
  | .obj fs => 1 + jsizeFields fs
/-- Fuel needed by `parseItems` on rendered elements. -/
def jsizeItems : List Json → Nat
  | [] => 0
  | e :: es => 1 + jsizeJ e + jsizeItems es
/-- Fuel needed by `parseFields` on rendered members. -/
def jsizeFields : List (String × Json) → Nat
  | [] => 0
  | f :: fs => 1 + jsizeJ f.2 + jsizeFields fs
end

/-! ### Concrete fixtures for the claim theorems -/

/-- A local store rooted at `./tmp`, as the crate's tests construct. -/
def stTmp : LocalStorage := ⟨"./tmp"⟩

/-- Both file operations succeed. -/
def envOK : IOEnv := ⟨true, true⟩

/-- `File::create` succeeds but `write_all` fails. -/
def envBadWrite : IOEnv := ⟨true, false⟩

/-- An empty file system: no shard directories, no files. -/
def fs0 : FS := ⟨[], []⟩

/-- A fresh document under a well-formed (tilde-delimited) identity, as
the crate's own storage tests build their fixtures (no revision yet). -/
def docA : DaaSDoc :=
  { _id := "order~clothing~iStore~6000"
    _rev := none
    source_name := "iStore"
    source_uid := 6000
    category := "order"
    subcategory := "clothing"
    author := "istore_app"
    process_ind := false
    last_updated := 1553988607
    data_usage_agreements := [⟨"billing", "www.dua.org/billing.pdf", 1553988607⟩]
    meta_data := []
    tags := []
    data_obj := .null }

/-- `docA` as the first `upsert_daas_doc` on an empty store returns it. -/
def docA1 : DaaSDoc := { docA with _rev := some "1" }

/-- The shard directory of `docA` under `stTmp`. -/
def dirA : String := "./tmp/order/clothing/iStore/6000"

/-- The file system after the first upsert of `docA`. -/
def fsA1 : FS := ⟨[dirA], [((dirA, "order~clothing~iStore~6000~1"), serialize docA1)]⟩

/-- The file system after the first upsert of `docA` with a failed
`write_all`: the revision file exists but is empty. -/
def fsA1bad : FS := ⟨[dirA], [((dirA, "order~clothing~iStore~6000~1"), "")]⟩

/-- The stored document at revision `"2"` of identity `a~b~c~d`. -/
def docR2 : DaaSDoc := { docA with _id := "a~b~c~d", _rev := some "2" }

/-- The stored document at revision `"10"` of the same identity. -/
def docR10 : DaaSDoc := { docA with _id := "a~b~c~d", _rev := some "10" }

/-- The shard directory of identity `a~b~c~d` under `stTmp`. -/
def dirB : String := "./tmp/a/b/c/d"

/-- A store holding revisions `"10"` and `"2"` of one identity. -/
def fsLex : FS :=
  ⟨[dirB],
   [((dirB, "a~b~c~d~10"), serialize docR10),
    ((dirB, "a~b~c~d~2"), serialize docR2)]⟩

/-- A document carrying the stale revision `"0"` of that identity. -/
def docStale : DaaSDoc := { docA with _id := "a~b~c~d", _rev := some "0" }

/-- What upserting a document carrying revision `"2"` into `fsLex`
produces: `latest_rev` answers `"2"` (the lexicographically greatest
file name), the check passes, and revision `"3"` is minted. -/
def docR3 : DaaSDoc := { docR2 with _rev := some "3" }

/-- `fsLex` after that upsert: a new revision-`"3"` file was created
although revision `"10"` — numerically the latest — already existed. -/
def fsLex3 : FS :=
  ⟨[dirB],
   [((dirB, "a~b~c~d~10"), serialize docR10),
    ((dirB, "a~b~c~d~2"), serialize docR2),
    ((dirB, "a~b~c~d~3"), serialize docR3)]⟩

/-- A stored, not yet processed document at revision `"1"`. -/
def docM : DaaSDoc := { docA with _id := "a~b~c~d", _rev := some "1" }

/-- A store holding exactly the revision-`"1"` file of `docM`. -/
def fsM : FS := ⟨[dirB], [((dirB, "a~b~c~d~1"), serialize docM)]⟩

/-- A topic that reports zero partitions on every metadata load. -/
def envZero : KafkaEnv := ⟨fun _ => 0⟩

/-- A topic that reports a partition on the second metadata load. -/
def envOne : KafkaEnv := ⟨fun i => if i = 1 then 1 else 0⟩

/-- A document whose identity was produced by `DaaSDoc::new` (pipe
delimiter). -/
def docPipe : DaaSDoc :=
  DaaSDoc.new "iStore" 5000 "order" "clothing" "istore_app" [] .null 1553988607

/-- A callback that succeeds exactly on offset 0. -/
def cbW : DaaSProcessorMessage → Except DaaSProcessingError Int :=
  fun msg => if msg.offset = 0 then .ok 1 else .error .BrokerError

/-- A message set on topic `genesis`, partition 0. -/
def msW : MessageSet := ⟨"genesis", 0, []⟩

/-- The initial consumer state. -/
def stP : ProcState := ⟨[], [], []⟩

/-- A message whose callback will succeed. -/
def m1 : KMessage := ⟨0, "key", serialize docA⟩

/-- A message whose callback will fail. -/
def m2 : KMessage := ⟨7, "key", serialize docA⟩

/-! ### Numeral lemmas -/

/-- A digit character's code point, for digits below ten. -/
theorem digitChar_toNat {k : Nat} (h : k < 10) : (digitChar k).toNat = 48 + k := by
  interval_cases k <;> decide

/-- Digit characters are digits. -/
theorem isDigit_digitChar {k : Nat} (h : k < 10) : isDigit (digitChar k) = true := by
  interval_cases k <;> decide

/-- A digit's code point lies between 48 and 57. -/
theorem isDigit_bounds {c : Char} (h : isDigit c = true) : 48 ≤ c.toNat ∧ c.toNat ≤ 57 := by
  simpa [isDigit] using h

/-- A digit differs from any character whose code point is above 57. -/
theorem isDigit_ne_hi {c L : Char} (h : isDigit c = true) (hL : 57 < L.toNat) : c ≠ L := by
  intro he
  subst he
  have := isDigit_bounds h
  omega

/-- A digit differs from any character whose code point is below 48. -/
theorem isDigit_ne_lo {c L : Char} (h : isDigit c = true) (hL : L.toNat < 48) : c ≠ L := by
  intro he
  subst he
  have := isDigit_bounds h
  omega

/-- The accumulator of `natDigitsGo` only ever rides along on the right. -/
theorem natDigitsGo_append (fuel : Nat) :
    ∀ n acc, natDigitsGo fuel n acc = natDigitsGo fuel n [] ++ acc := by
  induction fuel with
  | zero => intro n acc; simp [natDigitsGo]
  | succ fuel ih =>
    intro n acc
    by_cases h : n < 10
    · simp [natDigitsGo, h]
    · rw [natDigitsGo, if_neg h, natDigitsGo, if_neg h, ih (n / 10), ih (n / 10) [_]]
      simp

/-- With enough fuel the digit run is never empty. -/
theorem natDigitsGo_ne_nil (fuel n : Nat) : natDigitsGo (fuel + 1) n [] ≠ [] := by
  by_cases h : n < 10
  · simp [natDigitsGo, h]
  · rw [natDigitsGo, if_neg h, natDigitsGo_append]
    rcases natDigitsGo fuel (n / 10) [] with _ | ⟨c, cs⟩ <;> simp

/-- Every character `natDigitsGo` emits is a digit. -/
theorem natDigitsGo_digits (fuel : Nat) :
    ∀ n acc, (∀ c ∈ acc, isDigit c = true) → ∀ c ∈ natDigitsGo fuel n acc, isDigit c = true := by
  induction fuel with
  | zero => intro n acc hacc; simpa [natDigitsGo] using hacc
  | succ fuel ih =>
    intro n acc hacc c hc
    by_cases h : n < 10
    · rw [natDigitsGo, if_pos h] at hc
      rcases List.mem_cons.mp hc with hc | hc
      · subst hc; exact isDigit_digitChar h
      · exact hacc _ hc
    · rw [natDigitsGo, if_neg h] at hc
      refine ih (n / 10) _ ?_ c hc
      intro c' hc'
      rcases List.mem_cons.mp hc' with hc' | hc'
      · subst hc'; exact isDigit_digitChar (Nat.mod_lt _ (by omega))
      · exact hacc _ hc'

/-- Every character of a decimal numeral is a digit. -/
theorem natDigits_digits (n : Nat) : ∀ c ∈ natDigits n, isDigit c = true :=
  natDigitsGo_digits (n + 1) n [] (by simp)

/-- A decimal numeral is never empty. -/
theorem natDigits_ne_nil (n : Nat) : natDigits n ≠ [] := natDigitsGo_ne_nil n n

/-- Folding the digit-value accumulator over an appended singleton. -/
theorem digitsToNat_append_singleton (ds : List Char) (c : Char) :
    digitsToNat (ds ++ [c]) = digitsToNat ds * 10 + (c.toNat - 48) := by
  simp [digitsToNat, List.foldl_append]

/-- With fuel covering the magnitude, the digit run evaluates back to
the number. -/
theorem digitsToNat_natDigitsGo :
    ∀ fuel n, n < 10 ^ fuel → digitsToNat (natDigitsGo fuel n []) = n := by
  intro fuel
  induction fuel with
  | zero =>
    intro n h
    have hz : n = 0 := by omega
    subst hz
    rfl
  | succ fuel ih =>
    intro n h
    by_cases hn : n < 10
    · simp [natDigitsGo, hn, digitsToNat, digitChar_toNat hn]
    · rw [natDigitsGo, if_neg hn, natDigitsGo_append, digitsToNat_append_singleton,
        ih (n / 10) (by rw [Nat.div_lt_iff_lt_mul (by omega)]; rw [pow_succ] at h; omega),
        digitChar_toNat (Nat.mod_lt _ (by omega))]
      omega

/-- The decimal numeral of `n` evaluates back to `n`. -/
theorem digitsToNat_natDigits (n : Nat) : digitsToNat (natDigits n) = n :=
  digitsToNat_natDigitsGo (n + 1) n
    (lt_of_lt_of_le (Nat.lt_pow_self (by omega) n) (Nat.pow_le_pow_right (by omega) (by omega)))

/-- `takeDigits` consumes exactly a leading all-digit run when the
remainder does not start with a digit. -/
theorem takeDigits_exact :
    ∀ ds rest, (∀ c ∈ ds, isDigit c = true) → noDigitHead rest →
      takeDigits (ds ++ rest) = (ds, rest) := by
  intro ds
  induction ds with
  | nil =>
    intro rest _ hrest
    match rest with
    | [] => rfl
    | c :: r =>
      have hc : isDigit c = false := hrest
      simp [takeDigits, hc]
  | cons c cs ih =>
    intro rest hds hrest
    have hc : isDigit c = true := hds c (by simp)
    have ht := ih rest (fun c' hc' => hds c' (by simp [hc'])) hrest
    simp only [List.cons_append, takeDigits, hc, if_true, List.append_eq, ht]

/-- A rendered integer numeral, followed by anything not starting with
a digit, parses back to exactly that integer. -/
theorem parseNum_intChars (i : Int) (rest : List Char) (hrest : noDigitHead rest) :
    parseNum (intChars i ++ rest) = some (i, rest) := by
  by_cases hneg : i < 0
  · have heq : intChars i ++ rest = '-' :: (natDigits i.natAbs ++ rest) := by
      simp [intChars, hneg]
    have htake := takeDigits_exact (natDigits i.natAbs) rest (natDigits_digits _) hrest
    have hne := natDigits_ne_nil i.natAbs
    rw [heq, parseNum]
    simp only [List.head?_cons, List.tail_cons, reduceIte, htake, digitsToNat_natDigits]
    rw [if_neg (by simpa [List.isEmpty_iff] using hne)]
    have hv : -((i.natAbs : Nat) : Int) = i := by omega
    simp only [hv]
  · have heq : intChars i ++ rest = natDigits i.natAbs ++ rest := by simp [intChars, hneg]
    have htake := takeDigits_exact (natDigits i.natAbs) rest (natDigits_digits _) hrest
    have hne := natDigits_ne_nil i.natAbs
    have hhead : ¬ ((natDigits i.natAbs ++ rest).head? = some '-') := by
      rcases hd : natDigits i.natAbs with _ | ⟨c, cs⟩
      · exact absurd hd hne
      · have hc : isDigit c = true := by
          have := natDigits_digits i.natAbs c
          rw [hd] at this
          exact this (by simp)
        simp only [List.cons_append, List.head?_cons, ne_eq, Option.some.injEq]
        exact isDigit_ne_lo hc (by decide)
    rw [heq, parseNum, if_neg hhead, htake]
    rw [if_neg (by simpa [List.isEmpty_iff] using hne)]
    have hv : (digitsToNat (natDigits i.natAbs) : Int) = i := by
      rw [digitsToNat_natDigits]
      omega
    simp [hv]

/-! ### String-escape lemmas -/

/-- `hexVal` inverts `hexDigit` below 16. -/
theorem hexVal_hexDigit {k : Nat} (h : k < 16) : hexVal (hexDigit k) = some k := by
  interval_cases k <;> decide

/-- Parsing one escaped character consumes exactly that escape and
decodes the original character. -/
theorem parseStrAux_escapeChar (c : Char) (acc rest : List Char) :
    parseStrAux acc (escapeChar c ++ rest) = parseStrAux (c :: acc) rest := by
  rw [escapeChar]
  split_ifs with h1 h2 h3 h4 h5 h6 h7 h8
  · subst h1
    simp only [List.cons_append, List.nil_append]
    rw [parseStrAux.eq_def]
    simp [unescapeChar]
  · subst h2
    simp only [List.cons_append, List.nil_append]
    rw [parseStrAux.eq_def]
    simp [unescapeChar]
  · subst h3
    simp only [List.cons_append, List.nil_append]
    rw [parseStrAux.eq_def]
    simp [unescapeChar]
  · subst h4
    simp only [List.cons_append, List.nil_append]
    rw [parseStrAux.eq_def]
    simp [unescapeChar]
  · subst h5
    simp only [List.cons_append, List.nil_append]
    rw [parseStrAux.eq_def]
    simp [unescapeChar]
  · subst h6
    simp only [List.cons_append, List.nil_append]
    rw [parseStrAux.eq_def]
    simp [unescapeChar]
  · subst h7
    simp only [List.cons_append, List.nil_append]
    rw [parseStrAux.eq_def]
    simp [unescapeChar]
  · have hq : hexVal (hexDigit (c.toNat / 16)) = some (c.toNat / 16) :=
      hexVal_hexDigit (by omega)
    have hr : hexVal (hexDigit (c.toNat % 16)) = some (c.toNat % 16) :=
      hexVal_hexDigit (by omega)
    have h0 : hexVal '0' = some 0 := by decide
    have hch : Char.ofNat (c.toNat / 16 * 16 + c.toNat % 16) = c := by
      rw [show c.toNat / 16 * 16 + c.toNat % 16 = c.toNat by omega, Char.ofNat_toNat]
    simp only [List.cons_append, List.nil_append]
    rw [parseStrAux.eq_def]
    simp [h0, hq, hr]
    rw [hch]
  · simp only [List.cons_append, List.nil_append]
    rw [parseStrAux.eq_def]
    simp only [if_neg h1, if_neg h2]

/-- Parsing an escaped character run up to the closing quote returns
the original characters after the accumulator. -/
theorem parseStrAux_escapeList :
    ∀ (l acc rest : List Char),
      parseStrAux acc (escapeList l ++ ('"' :: rest)) = some (acc.reverse ++ l, rest) := by
  intro l
  induction l with
  | nil =>
    intro acc rest
    rw [escapeList, List.nil_append, parseStrAux.eq_def]
    simp
  | cons c l ih =>
    intro acc rest
    rw [escapeList, List.append_assoc, parseStrAux_escapeChar, ih (c :: acc) rest]
    simp

/-! ### First-character facts about rendered values -/

/-- The first character of a rendered JSON value is one of the parser's
dispatch characters. -/
theorem renderJ_head (j : Json) :
    ∃ c t, renderJ j = c :: t ∧
      (c = 'n' ∨ c = 't' ∨ c = 'f' ∨ c = '"' ∨ c = '[' ∨ c = '{' ∨ c = '-' ∨
        isDigit c = true) := by
  match j with
  | .null => exact ⟨'n', _, rfl, by simp⟩
  | .bool true => exact ⟨'t', _, rfl, by simp⟩
  | .bool false => exact ⟨'f', _, rfl, by simp⟩
  | .str s => exact ⟨'"', _, rfl, by simp⟩
  | .arr [] => exact ⟨'[', _, rfl, by simp⟩
  | .arr (e :: es) => exact ⟨'[', _, rfl, by simp⟩
  | .obj [] => exact ⟨'{', _, rfl, by simp⟩
  | .obj (f :: fs) => exact ⟨'{', _, rfl, by simp⟩
  | .num i =>
    by_cases hneg : i < 0
    · refine ⟨'-', natDigits i.natAbs, ?_, by simp⟩
      simp [renderJ, intChars, hneg]
    · rcases hd : natDigits i.natAbs with _ | ⟨c, cs⟩
      · exact absurd hd (natDigits_ne_nil _)
      · refine ⟨c, cs, by simp [renderJ, intChars, hneg, hd], ?_⟩
        have hc : isDigit c = true := by
          have := natDigits_digits i.natAbs c
          rw [hd] at this
          exact this (by simp)
        simp [hc]

/-- A rendered value (with anything appended) never starts with a
closing bracket. -/
theorem renderJ_append_head_ne_rbrack (j : Json) (rest : List Char) :
    ¬ ((renderJ j ++ rest).head? = some ']') := by
  obtain ⟨c, t, heq, hc⟩ := renderJ_head j
  rw [heq]
  simp only [List.cons_append, List.head?_cons, Option.some.injEq]
  rcases hc with h | h | h | h | h | h | h | h
  all_goals first
    | (subst h; decide)
    | (exact isDigit_ne_hi h (by decide))

/-- A rendered value (with anything appended) never starts with a
closing brace. -/
theorem renderJ_append_head_ne_rbrace (j : Json) (rest : List Char) :
    ¬ ((renderJ j ++ rest).head? = some '}') := by
  obtain ⟨c, t, heq, hc⟩ := renderJ_head j
  rw [heq]
  simp only [List.cons_append, List.head?_cons, Option.some.injEq]
  rcases hc with h | h | h | h | h | h | h | h
  all_goals first
    | (subst h; decide)
    | (exact isDigit_ne_hi h (by decide))

/-! ### Parser fuel accounting -/

/-- Every value needs at least one unit of fuel. -/
theorem jsizeJ_pos (j : Json) : 1 ≤ jsizeJ j := by
  cases j <;> simp [jsizeJ]

mutual
/-- The needed fuel is covered by the rendered length. -/
theorem jsizeJ_le_length : ∀ j : Json, jsizeJ j ≤ (renderJ j).length
  | .null => by simp [jsizeJ, renderJ]
  | .bool true => by simp [jsizeJ, renderJ]
  | .bool false => by simp [jsizeJ, renderJ]
  | .num i => by
    have hne := natDigits_ne_nil i.natAbs
    have : 1 ≤ (natDigits i.natAbs).length := List.length_pos.mpr hne
    by_cases hneg : i < 0
    · simp [jsizeJ, renderJ, intChars, hneg]
    · simp [jsizeJ, renderJ, intChars, hneg]
      omega
  | .str s => by simp [jsizeJ, renderJ]
  | .arr [] => by simp [jsizeJ, jsizeItems, renderJ]
  | .arr (e :: es) => by
    have h1 := jsizeJ_le_length e
    have h2 := jsizeItems_le_length es
    simp [jsizeJ, jsizeItems, renderJ]
    omega
  | .obj [] => by simp [jsizeJ, jsizeFields, renderJ]
  | .obj ((k, v) :: fs) => by
    have h1 := jsizeJ_le_length v
    have h2 := jsizeFields_le_length fs
    simp [jsizeJ, jsizeFields, renderJ, renderField]
    omega
theorem jsizeItems_le_length : ∀ es : List Json, jsizeItems es ≤ (renderItemsRest es).length
  | [] => by simp [jsizeItems, renderItemsRest]
  | e :: es => by
    have h1 := jsizeJ_le_length e
    have h2 := jsizeItems_le_length es
    simp [jsizeItems, renderItemsRest]
    omega
theorem jsizeFields_le_length :
    ∀ fs : List (String × Json), jsizeFields fs ≤ (renderFieldsRest fs).length
  | [] => by simp [jsizeFields, renderFieldsRest]
  | (k, v) :: fs => by
    have h1 := jsizeJ_le_length v
    have h2 := jsizeFields_le_length fs
    simp [jsizeFields, renderFieldsRest, renderField]
    omega
end

/-- Packed-string extensionality in the computable direction. -/
theorem strMk_data (s : String) : String.mk s.data = s := rfl

/-- Rendered elements followed by the closing bracket never start with
a digit. -/
theorem noDigitHead_items (es : List Json) (rest : List Char) :
    noDigitHead (renderItemsRest es ++ (']' :: rest)) := by
  cases es with
  | nil => exact (by decide : isDigit ']' = false)
  | cons e es => exact (by decide : isDigit ',' = false)

/-- Rendered members followed by the closing brace never start with a
digit. -/
theorem noDigitHead_fields (fs : List (String × Json)) (rest : List Char) :
    noDigitHead (renderFieldsRest fs ++ ('}' :: rest)) := by
  cases fs with
  | nil => exact (by decide : isDigit '}' = false)
  | cons f fs =>
    match f with
    | (k, v) => exact (by decide : isDigit ',' = false)

/-- The head of a rendered integer numeral is a sign or a digit. -/
theorem intChars_head (i : Int) :
    ∃ c t, intChars i = c :: t ∧ (c = '-' ∨ isDigit c = true) := by
  by_cases hneg : i < 0
  · exact ⟨'-', natDigits i.natAbs, by simp [intChars, hneg], Or.inl rfl⟩
  · rcases hd : natDigits i.natAbs with _ | ⟨c, cs⟩
    · exact absurd hd (natDigits_ne_nil _)
    · refine ⟨c, cs, by simp [intChars, hneg, hd], Or.inr ?_⟩
      have := natDigits_digits i.natAbs c
      rw [hd] at this
      exact this (by simp)

/-- One unfolding of `parseVal` on a non-empty input with fuel left. -/
theorem parseVal_cons (fuel : Nat) (c : Char) (r : List Char) :
    parseVal (fuel + 1) (c :: r) =
      (if c = 'n' then
        match r with
        | 'u' :: 'l' :: 'l' :: r' => some (.null, r')
        | _ => none
      else if c = 't' then
        match r with
        | 'r' :: 'u' :: 'e' :: r' => some (.bool true, r')
        | _ => none
      else if c = 'f' then
        match r with
        | 'a' :: 'l' :: 's' :: 'e' :: r' => some (.bool false, r')
        | _ => none
      else if c = '"' then
        match parseStrAux [] r with
        | some (cs, r') => some (.str (String.mk cs), r')
        | none => none
      else if c = '[' then
        if r.head? = some ']' then some (.arr [], r.tail)
        else
          match parseItems fuel r with
          | some (es, r') => some (.arr es, r')
          | none => none
      else if c = '{' then
        if r.head? = some '}' then some (.obj [], r.tail)
        else
          match parseFields fuel r with
          | some (fs, r') => some (.obj fs, r')
          | none => none
      else if c = '-' ∨ isDigit c then
        match parseNum (c :: r) with
        | some (i, r') => some (.num i, r')
        | none => none
      else none) := rfl

/-- One unfolding of `parseItems` with fuel left. -/
theorem parseItems_succ (fuel : Nat) (cs : List Char) :
    parseItems (fuel + 1) cs =
      (match parseVal fuel cs with
      | none => none
      | some (v, r) =>
        match r with
        | ']' :: r' => some ([v], r')
        | ',' :: r' =>
          match parseItems fuel r' with
          | some (vs, r'') => some (v :: vs, r'')
          | none => none
        | _ => none) := rfl

/-- One unfolding of `parseFields` with fuel left. -/
theorem parseFields_succ (fuel : Nat) (cs : List Char) :
    parseFields (fuel + 1) cs =
      (match cs with
      | '"' :: r =>
        match parseStrAux [] r with
        | none => none
        | some (kcs, r1) =>
          match r1 with
          | ':' :: r2 =>
            match parseVal fuel r2 with
            | none => none
            | some (v, r3) =>
              match r3 with
              | '}' :: r4 => some ([(String.mk kcs, v)], r4)
              | ',' :: r4 =>
                match parseFields fuel r4 with
                | some (fs, r5) => some ((String.mk kcs, v) :: fs, r5)
                | none => none
              | _ => none
          | _ => none
      | _ => none) := rfl

/-- Unfolding equation for `jsizeItems` on a cons cell. -/
theorem jsizeItems_cons (e : Json) (es : List Json) :
    jsizeItems (e :: es) = 1 + jsizeJ e + jsizeItems es := rfl

/-- Unfolding equation for `jsizeFields` on a cons cell. -/
theorem jsizeFields_cons (f : String × Json) (fs : List (String × Json)) :
    jsizeFields (f :: fs) = 1 + jsizeJ f.2 + jsizeFields fs := rfl

/-- Unfolding equation for `jsizeJ` on an array. -/
theorem jsizeJ_arr (es : List Json) : jsizeJ (.arr es) = 1 + jsizeItems es := rfl

/-- Unfolding equation for `jsizeJ` on an object. -/
theorem jsizeJ_obj (fs : List (String × Json)) : jsizeJ (.obj fs) = 1 + jsizeFields fs := rfl

mutual
/-- A rendered JSON value, followed by anything not starting with a
digit, parses back to exactly that value. -/
theorem parseVal_render :
    ∀ fuel (j : Json) (rest : List Char), jsizeJ j ≤ fuel → noDigitHead rest →
      parseVal fuel (renderJ j ++ rest) = some (j, rest)
  | 0, j, _, hle, _ => absurd hle (by have := jsizeJ_pos j; omega)
  | fuel + 1, .null, rest, _, _ => by
    rw [show renderJ .null ++ rest = 'n' :: 'u' :: 'l' :: 'l' :: rest from rfl, parseVal_cons]
    simp
  | fuel + 1, .bool true, rest, _, _ => by
    rw [show renderJ (.bool true) ++ rest = 't' :: 'r' :: 'u' :: 'e' :: rest from rfl,
      parseVal_cons]
    simp
  | fuel + 1, .bool false, rest, _, _ => by
    rw [show renderJ (.bool false) ++ rest = 'f' :: 'a' :: 'l' :: 's' :: 'e' :: rest from rfl,
      parseVal_cons]
    simp
  | fuel + 1, .num i, rest, _, hrest => by
    obtain ⟨c, t, heq, hc⟩ := intChars_head i
    have hpn : parseNum (c :: (t ++ rest)) = some (i, rest) := by
      have h := parseNum_intChars i rest hrest
      rwa [heq, List.cons_append] at h
    have hn : ¬ c = 'n' := by
      rcases hc with h | h
      · subst h; decide
      · exact isDigit_ne_hi h (by decide)
    have ht : ¬ c = 't' := by
      rcases hc with h | h
      · subst h; decide
      · exact isDigit_ne_hi h (by decide)
    have hf : ¬ c = 'f' := by
      rcases hc with h | h
      · subst h; decide
      · exact isDigit_ne_hi h (by decide)
    have hqu : ¬ c = '"' := by
      rcases hc with h | h
      · subst h; decide
      · exact isDigit_ne_lo h (by decide)
    have hlb : ¬ c = '[' := by
      rcases hc with h | h
      · subst h; decide
      · exact isDigit_ne_hi h (by decide)
    have hlc : ¬ c = '{' := by
      rcases hc with h | h
      · subst h; decide
      · exact isDigit_ne_hi h (by decide)
    have hrend : renderJ (.num i) ++ rest = c :: (t ++ rest) := by
      rw [show renderJ (.num i) = intChars i from rfl, heq, List.cons_append]
    rw [hrend, parseVal_cons, if_neg hn, if_neg ht, if_neg hf, if_neg hqu, if_neg hlb,
      if_neg hlc, if_pos hc, hpn]
  | fuel + 1, .str s, rest, _, _ => by
    have hrend : renderJ (.str s) ++ rest = '"' :: (escapeList s.data ++ ('"' :: rest)) := by
      rw [show renderJ (.str s) = '"' :: (escapeList s.data ++ ['"']) from rfl]
      simp
    rw [hrend, parseVal_cons]
    simp [parseStrAux_escapeList s.data [] rest, strMk_data]
  | fuel + 1, .arr [], rest, _, _ => by
    rw [show renderJ (.arr []) ++ rest = '[' :: (']' :: rest) from rfl, parseVal_cons]
    simp
  | fuel + 1, .arr (e :: es), rest, hle, _ => by
    have hrend : renderJ (.arr (e :: es)) ++ rest
        = '[' :: (renderJ e ++ (renderItemsRest es ++ (']' :: rest))) := by
      rw [show renderJ (.arr (e :: es))
          = '[' :: (renderJ e ++ (renderItemsRest es ++ [']'])) from rfl]
      simp
    have hhd := renderJ_append_head_ne_rbrack e (renderItemsRest es ++ (']' :: rest))
    have hit : parseItems fuel (renderJ e ++ (renderItemsRest es ++ (']' :: rest)))
        = some (e :: es, rest) := by
      refine parseItems_render fuel e es rest ?_
      have h1 := jsizeJ_arr (e :: es)
      omega
    rw [hrend, parseVal_cons, if_neg (by decide : ¬ ('[' : Char) = 'n'),
      if_neg (by decide : ¬ ('[' : Char) = 't'), if_neg (by decide : ¬ ('[' : Char) = 'f'),
      if_neg (by decide : ¬ ('[' : Char) = '"'), if_pos rfl, if_neg hhd, hit]
  | fuel + 1, .obj [], rest, _, _ => by
    rw [show renderJ (.obj []) ++ rest = '{' :: ('}' :: rest) from rfl, parseVal_cons]
    simp
  | fuel + 1, .obj ((k, v) :: fs), rest, hle, _ => by
    have hrend : renderJ (.obj ((k, v) :: fs)) ++ rest
        = '{' :: (renderField (k, v) ++ (renderFieldsRest fs ++ ('}' :: rest))) := by
      rw [show renderJ (.obj ((k, v) :: fs))
          = '{' :: (renderField (k, v) ++ (renderFieldsRest fs ++ ['}'])) from rfl]
      simp
    have hhd : ¬ ((renderField (k, v) ++ (renderFieldsRest fs ++ ('}' :: rest))).head?
        = some '}') := by
      rw [show renderField (k, v) = '"' :: (escapeList k.data ++ ('"' :: ':' :: renderJ v))
        from rfl]
      simp
    have hit : parseFields fuel (renderField (k, v) ++ (renderFieldsRest fs ++ ('}' :: rest)))
        = some ((k, v) :: fs, rest) := by
      refine parseFields_render fuel k v fs rest ?_
      have h1 := jsizeJ_obj ((k, v) :: fs)
      omega
    rw [hrend, parseVal_cons, if_neg (by decide : ¬ ('{' : Char) = 'n'),
      if_neg (by decide : ¬ ('{' : Char) = 't'), if_neg (by decide : ¬ ('{' : Char) = 'f'),
      if_neg (by decide : ¬ ('{' : Char) = '"'), if_neg (by decide : ¬ ('{' : Char) = '['),
      if_pos rfl, if_neg hhd, hit]
/-- Rendered array elements followed by the closing bracket parse back
to exactly those elements. -/
theorem parseItems_render :
    ∀ fuel (e : Json) (es : List Json) (rest : List Char), jsizeItems (e :: es) ≤ fuel →
      parseItems fuel (renderJ e ++ (renderItemsRest es ++ (']' :: rest)))
        = some (e :: es, rest)
  | 0, e, es, rest, hle => absurd hle (by have h1 := jsizeItems_cons e es; omega)
  | fuel + 1, e, es, rest, hle => by
    have hv := parseVal_render fuel e (renderItemsRest es ++ (']' :: rest))
      (by have h1 := jsizeItems_cons e es; omega) (noDigitHead_items es rest)
    rw [parseItems_succ, hv]
    cases es with
    | nil => simp [renderItemsRest]
    | cons e' es' =>
      have hit := parseItems_render fuel e' es' rest
        (by
          have h1 := jsizeItems_cons e (e' :: es')
          omega)
      have hstream : renderItemsRest (e' :: es') ++ (']' :: rest)
          = ',' :: (renderJ e' ++ (renderItemsRest es' ++ (']' :: rest))) := by
        rw [show renderItemsRest (e' :: es')
            = ',' :: (renderJ e' ++ renderItemsRest es') from rfl]
        simp
      rw [hstream]
      simp [hit]
/-- Rendered object members followed by the closing brace parse back
to exactly those members. -/
theorem parseFields_render :
    ∀ fuel (k : String) (v : Json) (fs : List (String × Json)) (rest : List Char),
      jsizeFields ((k, v) :: fs) ≤ fuel →
      parseFields fuel (renderField (k, v) ++ (renderFieldsRest fs ++ ('}' :: rest)))
        = some ((k, v) :: fs, rest)
  | 0, k, v, fs, rest, hle => absurd hle (by have h1 := jsizeFields_cons (k, v) fs; omega)
  | fuel + 1, k, v, fs, rest, hle => by
    have hre : renderField (k, v) ++ (renderFieldsRest fs ++ ('}' :: rest))
        = '"' :: (escapeList k.data
            ++ ('"' :: (':' :: (renderJ v ++ (renderFieldsRest fs ++ ('}' :: rest)))))) := by
      rw [show renderField (k, v) = '"' :: (escapeList k.data ++ ('"' :: ':' :: renderJ v))
        from rfl]
      simp
    have hkey := parseStrAux_escapeList k.data []
      (':' :: (renderJ v ++ (renderFieldsRest fs ++ ('}' :: rest))))
    have hv := parseVal_render fuel v (renderFieldsRest fs ++ ('}' :: rest))
      (by have h1 := jsizeFields_cons (k, v) fs; simp at h1; omega)
      (noDigitHead_fields fs rest)
    cases fs with
    | nil =>
      simp only [renderFieldsRest, List.nil_append] at hkey hv
      rw [hre, parseFields_succ]
      simp [hkey, hv, strMk_data, renderFieldsRest]
    | cons f' fs' =>
      match f' with
      | (k', v') =>
        have hfs := parseFields_render fuel k' v' fs' rest
          (by
            have h1 := jsizeFields_cons (k, v) ((k', v') :: fs')
            simp at h1
            omega)
        have hstream : renderFieldsRest ((k', v') :: fs') ++ ('}' :: rest)
            = ',' :: (renderField (k', v') ++ (renderFieldsRest fs' ++ ('}' :: rest))) := by
          rw [show renderFieldsRest ((k', v') :: fs')
              = ',' :: (renderField (k', v') ++ renderFieldsRest fs') from rfl]
          simp
        rw [hstream] at hkey hv
        rw [hre, hstream, parseFields_succ]
        simp [hkey, hv, hfs, strMk_data]
end

/-! ### Decoding inverts encoding -/

/-- Unsigned integers survive the JSON number round trip. -/
theorem asNat_natCast (n : Nat) : asNat (.num (n : Int)) = some n := by
  rw [show asNat (.num (n : Int)) = if ((n : Int) < 0) then none else some ((n : Int)).toNat
    from rfl, if_neg (by omega), Int.toNat_natCast]

/-- `decodeDUA` inverts `encodeDUA`. -/
theorem decodeDUA_encodeDUA (d : DUA) : decodeDUA (encodeDUA d) = some d := by
  simp [decodeDUA, encodeDUA, jLookup, asStr, asNat_natCast]

/-- Usage-agreement lists survive the round trip. -/
theorem optMapM_encodeDUA (l : List DUA) : optMapM decodeDUA (l.map encodeDUA) = some l := by
  induction l with
  | nil => rfl
  | cons d l ih => simp [optMapM, decodeDUA_encodeDUA, ih]

/-- Tag lists survive the round trip. -/
theorem optMapM_str (l : List String) : optMapM asStr (l.map Json.str) = some l := by
  induction l with
  | nil => rfl
  | cons s l ih => simp [optMapM, asStr, ih]

/-- `asStr` on a string node. -/
theorem asStr_str (s : String) : asStr (.str s) = some s := rfl

/-- Metadata entry lists survive the round trip. -/
theorem optMapM_meta (l : List (String × String)) :
    optMapM (fun kv => (asStr kv.2).map (fun v => (kv.1, v)))
      (l.map (fun kv => (kv.1, Json.str kv.2))) = some l := by
  induction l with
  | nil => rfl
  | cons kv l ih => simp [optMapM, asStr_str, ih]

/-- The derived deserializer inverts the derived serializer on the
JSON data model. -/
theorem decodeDoc_encodeDoc (d : DaaSDoc) : decodeDoc (encodeDoc d) = some d := by
  obtain ⟨i, r, sn, su, c, sc, au, pind, lu, duas, md, tg, dobj⟩ := d
  cases r <;>
    simp [decodeDoc, encodeDoc, jLookup, asStr_str, asOptStr, asBool, asNat_natCast,
      decodeDUAs, decodeMeta, decodeTags, optMapM_encodeDUA, optMapM_str, optMapM_meta]

/-- A rendered JSON document parses back to exactly itself. -/
theorem parseJson_render (j : Json) : parseJson (String.mk (renderJ j)) = some j := by
  have hfuel : jsizeJ j ≤ (renderJ j).length + 1 := by
    have := jsizeJ_le_length j
    omega
  have h := parseVal_render ((renderJ j).length + 1) j [] hfuel trivial
  rw [List.append_nil] at h
  show (match parseVal ((renderJ j).length + 1) (renderJ j) with
    | some (j, []) => some j
    | _ => none) = some j
  rw [h]

/-- Serialization round trip for the whole document model:
`from_serialized (serialize d)` recovers every field of `d`,
payload included. -/
theorem from_serialized_serialize (d : DaaSDoc) : from_serialized (serialize d) = some d := by
  unfold from_serialized serialize
  rw [parseJson_render]
  exact decodeDoc_encodeDoc d

/-! ### File-system frame lemmas -/

/-- A readable file's key is present among the entries. -/
theorem readFile_any (fs : FS) (key : String × String) (c : String)
    (h : fs.readFile key = some c) : fs.files.any (fun e => e.1 = key) = true := by
  unfold FS.readFile at h
  rcases hf : fs.files.find? (fun e => e.1 = key) with _ | e
  · rw [hf] at h
    simp at h
  · have hmem := List.mem_of_find?_eq_some hf
    have hp := List.find?_some hf
    simp only [List.any_eq_true]
    exact ⟨e, hmem, hp⟩

/-- Overwriting an existing file leaves the list of file keys
unchanged: no file is created. -/
theorem writeFile_keys (fs : FS) (key : String × String) (content : String)
    (h : fs.files.any (fun e => e.1 = key) = true) :
    (fs.writeFile key content).files.map Prod.fst = fs.files.map Prod.fst := by
  unfold FS.writeFile
  rw [if_pos h]
  simp only [List.map_map]
  refine List.map_congr_left ?_
  intro e _
  by_cases hc : e.1 = key
  · simp [Function.comp, hc]
  · simp [Function.comp, hc]

/-- Updating entries under one key does not change what `find?` sees
under a different key. -/
theorem find?_update_ne (l : List ((String × String) × String)) (key k' : String × String)
    (content : String) (hne : k' ≠ key) :
    (l.map (fun e => if e.1 = key then (key, content) else e)).find? (fun e => e.1 = k')
      = l.find? (fun e => e.1 = k') := by
  induction l with
  | nil => rfl
  | cons e l ih =>
    by_cases hc : e.1 = key
    · have h1 : ¬ (key = k') := fun h => hne h.symm
      rw [List.map_cons, if_pos hc, List.find?_cons_of_neg _ (by simp [h1]),
        List.find?_cons_of_neg _ (by simp [hc, h1]), ih]
    · rw [List.map_cons, if_neg hc]
      by_cases hp : e.1 = k'
      · rw [List.find?_cons_of_pos _ (by simp [hp]), List.find?_cons_of_pos _ (by simp [hp])]
      · rw [List.find?_cons_of_neg _ (by simp [hp]), List.find?_cons_of_neg _ (by simp [hp]),
          ih]

/-- Appending an entry under one key does not change what `find?` sees
under a different key. -/
theorem find?_append_single (l : List ((String × String) × String)) (key k' : String × String)
    (content : String) (hne : k' ≠ key) :
    (l ++ [(key, content)]).find? (fun e => e.1 = k') = l.find? (fun e => e.1 = k') := by
  have h1 : ¬ (key = k') := fun h => hne h.symm
  induction l with
  | nil => rw [List.nil_append, List.find?_cons_of_neg _ (by simp [h1])]
  | cons e l ih =>
    by_cases hp : e.1 = k'
    · rw [List.cons_append, List.find?_cons_of_pos _ (by simp [hp]),
        List.find?_cons_of_pos _ (by simp [hp])]
    · rw [List.cons_append, List.find?_cons_of_neg _ (by simp [hp]),
        List.find?_cons_of_neg _ (by simp [hp]), ih]

/-- Writing one file leaves every other file's content unchanged. -/
theorem writeFile_readFile_ne (fs : FS) (key k' : String × String) (content : String)
    (hne : k' ≠ key) :
    (fs.writeFile key content).readFile k' = fs.readFile k' := by
  unfold FS.writeFile FS.readFile
  by_cases h : fs.files.any (fun e => e.1 = key)
  · simp only [h, if_true]
    rw [find?_update_ne fs.files key k' content hne]
  · simp only [h]
    rw [if_neg (by simp [h])]
    rw [find?_append_single fs.files key k' content hne]

/-! ### Claim theorems -/

/-- C1: on a fresh identity (empty store, no shard directory, document
carrying no revision), `upsert_daas_doc` persists and returns the
document with revision `"1"`, not the claimed `"0"`: `latest_rev`
answers `"0"` for a missing directory and `next_rev` increments it. -/
theorem upsert_fresh_identity_assigns_rev_one :
    stTmp.upsert_daas_doc envOK fs0 docA = some (.ok docA1, fsA1)
      ∧ docA._rev = none ∧ docA1._rev = some "1" :=
  ⟨rfl, rfl, rfl⟩

/-- C3 counterexample: `DaaSDoc::new` builds the id with the pipe
delimiter, so the concrete id differs from the tilde-joined id the
claim asserts. -/
theorem make_id_pipe_counterexample :
    docPipe._id = "order|clothing|iStore|5000"
      ∧ docPipe._id ≠ "order" ++ "~" ++ "clothing" ++ "~" ++ "iStore" ++ "~"
          ++ toString (5000 : Nat) :=
  ⟨rfl, by decide⟩

/-- C3 (amended): for every call to `DaaSDoc::new`, the constructed
`_id` is category, subcategory, source name and source uid joined by
the `"|"` delimiter (`DaaSDoc::DELIMITER`), in that order. -/
theorem make_id_joins_with_pipe (src_name : String) (src_uid : Nat)
    (cat subcat auth : String) (duas : List DUA) (data : Json) (now : Nat) :
    (DaaSDoc.new src_name src_uid cat subcat auth duas data now)._id
      = cat ++ "|" ++ subcat ++ "|" ++ src_name ++ "|" ++ toString src_uid := rfl

/-- C4: when `write_all` fails during `upsert_daas_doc` (the document
file was created but its content could not be written), the function
still returns `Ok` with the updated document — the persist failure is
only logged, never surfaced. -/
theorem upsert_write_failure_still_returns_ok :
    envBadWrite.writeOk = false
      ∧ stTmp.upsert_daas_doc envBadWrite fs0 docA = some (.ok docA1, fsA1bad)
      ∧ fsA1bad.readFile (dirA, "order~clothing~iStore~6000~1") = some "" :=
  ⟨rfl, rfl, rfl⟩

/-- C5 counterexample: the claim's "latest existing revision" read
numerically is falsified by the code.  With revisions `"2"` and `"10"`
stored (so the numerically latest existing revision is `"10"`), a
document carrying `_rev = Some("2")` — different from that latest —
is *not* rejected: `latest_rev` answers `"2"` (the lexicographically
greatest file name), the check passes, and the upsert succeeds,
minting a new revision-`"3"` file; storage grows from two files to
three. -/
theorem upsert_stale_numeric_counterexample :
    docR2._rev = some "2"
      ∧ fsLex.readFile (dirB, make_doc_uuid "a~b~c~d" "10") = some (serialize docR10)
      ∧ docR10._rev = some "10"
      ∧ parseUsize "2" = some 2 ∧ parseUsize "10" = some 10
      ∧ stTmp.upsert_daas_doc envOK fsLex docR2 = some (.ok docR3, fsLex3)
      ∧ docR3._rev = some "3"
      ∧ fsLex.files.length = 2 ∧ fsLex3.files.length = 3 :=
  ⟨rfl, rfl, rfl, by decide, by decide, rfl, rfl, rfl, rfl⟩

/-- C5 (amended): a document carrying a revision different from
`latest_rev`'s answer for its id — the revision suffix of the
lexicographically greatest file name in the shard directory, which is
the numerically greatest only while revision strings share a digit
length — makes `upsert_daas_doc` fail with `UpsertError` and return
the file system unchanged: the check precedes every write. -/
theorem upsert_stale_revision_fails_unchanged (st : LocalStorage) (env : IOEnv) (fs : FS)
    (doc : DaaSDoc) (r latest : String) (h1 : doc._rev = some r)
    (h2 : st.latest_rev fs doc._id = some latest) (h3 : latest ≠ r) :
    st.upsert_daas_doc env fs doc = some (.error ⟨⟩, fs) := by
  unfold LocalStorage.upsert_daas_doc
  rw [h2, h1]
  simp [h3]

/-- C5 witness: with stored revisions `"10"` and `"2"`, a document
carrying revision `"0"` is rejected and the store is untouched. -/
theorem upsert_stale_revision_fails_unchanged_witness :
    stTmp.upsert_daas_doc envOK fsLex docStale = some (.error ⟨⟩, fsLex) :=
  upsert_stale_revision_fails_unchanged stTmp envOK fsLex docStale "0" "2" rfl rfl
    (by decide)

/-- C10: a document id with fewer than four tilde-separated components
— such as every id `DaaSDoc::new` builds, which joins with `"|"` —
makes both `upsert_daas_doc` and `get_doc_by_id` panic (out-of-range
indexing in `get_dir_path`, modelled as `none`) instead of returning
`UpsertError` or `RetrieveError`. -/
theorem short_id_panics (st : LocalStorage) (env : IOEnv) (fs : FS) (doc : DaaSDoc)
    (rev : Option String) (h : (rustSplit doc._id '~').length < 4) :
    st.upsert_daas_doc env fs doc = none ∧ st.get_doc_by_id fs doc._id rev = none := by
  have hdir : st.get_dir_path doc._id = none := by
    unfold LocalStorage.get_dir_path
    rw [if_neg (by omega)]
  constructor
  · unfold LocalStorage.upsert_daas_doc LocalStorage.latest_rev
    rw [hdir]
  · unfold LocalStorage.get_doc_by_id
    rw [hdir]

/-- C10 witness: the id `DaaSDoc::new` produces for the crate's own
example inputs has a single tilde-component, and both storage entry
points panic on it. -/
theorem short_id_panics_witness :
    (rustSplit docPipe._id '~').length < 4
      ∧ stTmp.upsert_daas_doc envOK fs0 docPipe = none
      ∧ stTmp.get_doc_by_id fs0 docPipe._id none = none :=
  ⟨by decide, (short_id_panics stTmp envOK fs0 docPipe none (by decide)).1,
    (short_id_panics stTmp envOK fs0 docPipe none (by decide)).2⟩

/-- Helper for C2: when the shard directory exists and its greatest
entry (in the path order `latest_rev` sorts by) is the revision-`r`
file of this identity, `get_doc_by_id(id, None)` returns the document
stored in that file. -/
theorem getDoc_latest_lex (st : LocalStorage) (fs : FS) (id dir r : String) (d : DaaSDoc)
    (hdir : st.get_dir_path id = some dir)
    (hisdir : fs.isDir dir = true)
    (hmax : strMax (fs.readDirNames dir) = some (make_doc_uuid id r))
    (hlast : (rustSplit (make_doc_uuid id r) '~').getLastD "" = r)
    (hread : fs.readFile (dir, make_doc_uuid id r) = some (serialize d)) :
    st.get_doc_by_id fs id none = some (.ok d) := by
  have hlast' : ((rustSplit (make_doc_uuid id r) '~').getLast?).getD "" = r := by
    simpa using hlast
  unfold LocalStorage.get_doc_by_id LocalStorage.latest_rev readDoc
  rw [hdir]
  simp [hisdir, hmax, hlast', hread, from_serialized_serialize]

/-- Helper for C2: an explicit revision whose file is absent yields
`RetrieveError`. -/
theorem getDoc_missing_rev (st : LocalStorage) (fs : FS) (id dir r : String)
    (hdir : st.get_dir_path id = some dir)
    (hmiss : fs.readFile (dir, make_doc_uuid id r) = none) :
    st.get_doc_by_id fs id (some r) = some (.error ⟨⟩) := by
  unfold LocalStorage.get_doc_by_id readDoc
  rw [hdir]
  simp [hmiss]

/-- C2 counterexample: with revisions `"10"` and `"2"` stored,
`get_doc_by_id(id, None)` returns the revision-`"2"` document — the
lexicographically greatest file name — although revision `"10"` is
present and numerically greater. -/
theorem get_latest_lexicographic_counterexample :
    stTmp.get_doc_by_id fsLex "a~b~c~d" none = some (.ok docR2)
      ∧ docR2._rev = some "2"
      ∧ fsLex.readFile (dirB, make_doc_uuid "a~b~c~d" "10") = some (serialize docR10)
      ∧ docR10._rev = some "10"
      ∧ parseUsize "2" = some 2 ∧ parseUsize "10" = some 10 :=
  ⟨getDoc_latest_lex stTmp fsLex "a~b~c~d" dirB "2" docR2 rfl rfl rfl rfl rfl,
    rfl, rfl, rfl, by decide, by decide⟩

/-- C2 (amended): `get_doc_by_id(id, None)` returns the record stored
under the revision whose file name is the greatest in the path order
`latest_rev` sorts by (lexicographic; equal to the numeric order only
while revision strings share a length), and `get_doc_by_id(id, Some r)`
with no stored file for `r` returns `RetrieveError`. -/
theorem get_doc_by_id_lex_latest_and_notfound (st : LocalStorage) (fs : FS)
    (id dir r : String) (d : DaaSDoc) :
    (st.get_dir_path id = some dir → fs.isDir dir = true →
      strMax (fs.readDirNames dir) = some (make_doc_uuid id r) →
      (rustSplit (make_doc_uuid id r) '~').getLastD "" = r →
      fs.readFile (dir, make_doc_uuid id r) = some (serialize d) →
      st.get_doc_by_id fs id none = some (.ok d))
    ∧ (st.get_dir_path id = some dir →
      fs.readFile (dir, make_doc_uuid id r) = none →
      st.get_doc_by_id fs id (some r) = some (.error ⟨⟩)) :=
  ⟨fun h1 h2 h3 h4 h5 => getDoc_latest_lex st fs id dir r d h1 h2 h3 h4 h5,
    fun h1 h2 => getDoc_missing_rev st fs id dir r h1 h2⟩

/-- C2 witness: both parts at a concrete store — the latest lookup
returns the stored revision-`"2"` document, and revision `"7"`, which
has no file, yields `RetrieveError`. -/
theorem get_doc_by_id_lex_latest_and_notfound_witness :
    stTmp.get_doc_by_id fsLex "a~b~c~d" none = some (.ok docR2)
      ∧ stTmp.get_doc_by_id fsLex "a~b~c~d" (some "7") = some (.error ⟨⟩) :=
  ⟨(get_doc_by_id_lex_latest_and_notfound stTmp fsLex "a~b~c~d" dirB "2" docR2).1
      rfl rfl rfl rfl rfl,
    (get_doc_by_id_lex_latest_and_notfound stTmp fsLex "a~b~c~d" dirB "7" docR2).2
      rfl rfl⟩

/-- C6: `mark_doc_as_processed` re-reads the stored record by the
given document's own id and revision, returns it with
`process_indicator` set, and overwrites the same revision file: the
result state is exactly a `writeFile` to that one key, the list of
file keys is unchanged (no new revision file), every other file keeps
its content, and the returned record keeps the identity and revision. -/
theorem mark_doc_as_processed_same_file (st : LocalStorage) (env : IOEnv) (fs : FS)
    (doc d0 : DaaSDoc) (dir r : String)
    (henvC : env.createOk = true) (henvW : env.writeOk = true)
    (hrev : doc._rev = some r)
    (hdir : st.get_dir_path doc._id = some dir)
    (hdir2 : st.get_dir_path (make_doc_uuid doc._id r) = some dir)
    (hread : fs.readFile (dir, make_doc_uuid doc._id r) = some (serialize d0))
    (hid : d0._id = doc._id) (hr0 : d0._rev = some r) :
    st.mark_doc_as_processed env fs doc
        = some (.ok { d0 with process_ind := true },
            fs.writeFile (dir, make_doc_uuid doc._id r)
              (serialize { d0 with process_ind := true }))
      ∧ ({ d0 with process_ind := true })._id = doc._id
      ∧ ({ d0 with process_ind := true })._rev = doc._rev
      ∧ (fs.writeFile (dir, make_doc_uuid doc._id r)
            (serialize { d0 with process_ind := true })).files.map Prod.fst
          = fs.files.map Prod.fst
      ∧ ∀ k', k' ≠ (dir, make_doc_uuid doc._id r) →
          (fs.writeFile (dir, make_doc_uuid doc._id r)
              (serialize { d0 with process_ind := true })).readFile k'
            = fs.readFile k' := by
  refine ⟨?_, by simp [hid], by simp [hr0, hrev], ?_, ?_⟩
  · unfold LocalStorage.mark_doc_as_processed LocalStorage.get_doc_by_id readDoc
    rw [hrev, hdir]
    simp [hread, from_serialized_serialize, hid, hr0, hdir2, henvC, henvW]
  · exact writeFile_keys fs _ _ (readFile_any fs _ _ hread)
  · intro k' hk
    exact writeFile_readFile_ne fs _ k' _ hk

/-- C6 witness: marking the stored revision-`"1"` document processed
overwrites exactly its own file. -/
theorem mark_doc_as_processed_same_file_witness :
    stTmp.mark_doc_as_processed envOK fsM docM
        = some (.ok { docM with process_ind := true },
            fsM.writeFile (dirB, make_doc_uuid docM._id "1")
              (serialize { docM with process_ind := true }))
      ∧ ({ docM with process_ind := true })._id = docM._id
      ∧ ({ docM with process_ind := true })._rev = docM._rev
      ∧ (fsM.writeFile (dirB, make_doc_uuid docM._id "1")
            (serialize { docM with process_ind := true })).files.map Prod.fst
          = fsM.files.map Prod.fst
      ∧ ∀ k', k' ≠ (dirB, make_doc_uuid docM._id "1") →
          (fsM.writeFile (dirB, make_doc_uuid docM._id "1")
              (serialize { docM with process_ind := true })).readFile k'
            = fsM.readFile k' :=
  mark_doc_as_processed_same_file stTmp envOK fsM docM docM dirB "1"
    rfl rfl rfl rfl rfl rfl rfl rfl

/-- C9: serialization round trip — deserializing a serialized document
recovers every field, the payload byte for byte included. -/
theorem from_serialized_inverts_serialize (d : DaaSDoc) :
    from_serialized (serialize d) = some d :=
  from_serialized_serialize d

/-- Helper for C7: when the first three metadata loads all report zero
partitions, the loop performs exactly three loads and gives up. -/
theorem broker_loop_unknown (env : KafkaEnv) (h : ∀ i, i < 3 → env.partitions i = 0) :
    broker_attempt_loop env 0 = .unknown 3 := by
  rw [broker_attempt_loop]
  simp [h 0 (by omega)]
  rw [broker_attempt_loop]
  simp [h 1 (by omega)]
  rw [broker_attempt_loop]
  simp [h 2 (by omega)]

/-- Helper for C7: the first load (index `i < 3`) reporting a
partition stops the loop after exactly `i + 1` loads. -/
theorem broker_loop_found (env : KafkaEnv) (i : Nat) (hi : i < 3)
    (hz : ∀ j, j < i → env.partitions j = 0) (hp : 0 < env.partitions i) :
    broker_attempt_loop env 0 = .found (i + 1) := by
  interval_cases i
  · rw [broker_attempt_loop]
    simp [hp]
  · rw [broker_attempt_loop]
    simp [hz 0 (by omega)]
    rw [broker_attempt_loop]
    simp [hp]
  · rw [broker_attempt_loop]
    simp [hz 0 (by omega)]
    rw [broker_attempt_loop]
    simp [hz 1 (by omega)]
    rw [broker_attempt_loop]
    simp [hp]

/-- C7: a topic reporting zero partitions on every load makes
`broker_message_with_client` fail with `UnknownTopicOrPartition` after
exactly 3 metadata loads; if some load among the first 3 reports a
partition, it instead builds a producer with `RequiredAcks::One` and a
1-second ack timeout and sends exactly one record keyed by the
document id with the serialized document as value. -/
theorem broker_delivery_spec (env : KafkaEnv) (doc : DaaSDoc) (topic : String) :
    ((∀ i, i < 3 → env.partitions i = 0) →
      DaaSKafkaBroker.broker_message_with_client env doc topic = .unknownTopic 3)
    ∧ (∀ i, i < 3 → (∀ j, j < i → env.partitions j = 0) → 0 < env.partitions i →
      DaaSKafkaBroker.broker_message_with_client env doc topic
        = .sent (i + 1) .one 1 ⟨topic, -1, doc._id, serialize doc⟩) := by
  constructor
  · intro h
    unfold DaaSKafkaBroker.broker_message_with_client
    rw [broker_loop_unknown env h]
  · intro i hi hz hp
    unfold DaaSKafkaBroker.broker_message_with_client
    rw [broker_loop_found env i hi hz hp]

/-- C7 witness: the always-empty topic fails after 3 loads; a topic
appearing on the second load sends one keyed record after 2 loads. -/
theorem broker_delivery_spec_witness :
    DaaSKafkaBroker.broker_message_with_client envZero docA "genesis" = .unknownTopic 3
      ∧ DaaSKafkaBroker.broker_message_with_client envOne docA "genesis"
        = .sent 2 .one 1 ⟨"genesis", -1, docA._id, serialize docA⟩ :=
  ⟨(broker_delivery_spec envZero docA "genesis").1 (fun _ _ => rfl),
    (broker_delivery_spec envOne docA "genesis").2 1 (by omega)
      (fun j hj => by interval_cases j; rfl) (by decide)⟩

/-- Helper for C8: the loop body on a message whose callback fails
only appends the warning (with document id, topic, partition, offset)
and consumes nothing. -/
theorem handle_message_error (cb : DaaSProcessorMessage → Except DaaSProcessingError Int)
    (ms : MessageSet) (st : ProcState) (m : KMessage) (document : DaaSDoc)
    (e : DaaSProcessingError)
    (hdes : from_serialized m.value = some document)
    (hcb : cb ⟨m.offset, m.key, document, ms.topic⟩ = .error e) :
    DaaSProcessor.handle_message cb ms st m
      = { st with warnings := st.warnings
          ++ [(document._id, ms.topic, ms.partition, m.offset)] } := by
  unfold DaaSProcessor.handle_message
  rw [hdes]
  simp [hcb]

/-- Helper for C8: the loop body on a message whose callback succeeds
consumes exactly that message's topic, partition and offset. -/
theorem handle_message_ok (cb : DaaSProcessorMessage → Except DaaSProcessingError Int)
    (ms : MessageSet) (st : ProcState) (m : KMessage) (document : DaaSDoc) (i : Int)
    (hdes : from_serialized m.value = some document)
    (hcb : cb ⟨m.offset, m.key, document, ms.topic⟩ = .ok i) :
    DaaSProcessor.handle_message cb ms st m
      = { st with consumed := st.consumed ++ [(ms.topic, ms.partition, m.offset)] } := by
  unfold DaaSProcessor.handle_message
  rw [hdes]
  simp [hcb]

/-- The message loop processes the head, then the rest. -/
theorem process_messages_cons (cb : DaaSProcessorMessage → Except DaaSProcessingError Int)
    (ms : MessageSet) (st : ProcState) (m : KMessage) (rest : List KMessage) :
    DaaSProcessor.process_messages cb ms st (m :: rest)
      = DaaSProcessor.process_messages cb ms (DaaSProcessor.handle_message cb ms st m)
          rest := rfl

/-- C8: in the consumer loop, a message whose callback fails commits
nothing — the loop records only a warning carrying the topic,
partition and offset and proceeds to the remaining messages; a message
whose callback succeeds has exactly its topic, partition and offset
consumed before the loop proceeds. -/
theorem consumer_per_message_spec
    (cb : DaaSProcessorMessage → Except DaaSProcessingError Int)
    (ms : MessageSet) (st : ProcState) (m : KMessage) (rest : List KMessage)
    (document : DaaSDoc) (e : DaaSProcessingError) (i : Int) :
    (from_serialized m.value = some document →
      cb ⟨m.offset, m.key, document, ms.topic⟩ = .error e →
      DaaSProcessor.process_messages cb ms st (m :: rest)
        = DaaSProcessor.process_messages cb ms
            { st with warnings := st.warnings
                ++ [(document._id, ms.topic, ms.partition, m.offset)] } rest)
    ∧ (from_serialized m.value = some document →
      cb ⟨m.offset, m.key, document, ms.topic⟩ = .ok i →
      DaaSProcessor.process_messages cb ms st (m :: rest)
        = DaaSProcessor.process_messages cb ms
            { st with consumed := st.consumed
                ++ [(ms.topic, ms.partition, m.offset)] } rest) := by
  constructor
  · intro hdes hcb
    rw [process_messages_cons, handle_message_error cb ms st m document e hdes hcb]
  · intro hdes hcb
    rw [process_messages_cons, handle_message_ok cb ms st m document i hdes hcb]

/-- C8 witness: with a callback succeeding exactly on offset 0, the
offset-7 message yields only a warning and the offset-0 message is
consumed with its topic, partition and offset. -/
theorem consumer_per_message_spec_witness :
    DaaSProcessor.process_messages cbW msW stP [m2]
        = DaaSProcessor.process_messages cbW msW
            { stP with warnings := stP.warnings
                ++ [(docA._id, msW.topic, msW.partition, m2.offset)] } []
      ∧ DaaSProcessor.process_messages cbW msW stP [m1]
        = DaaSProcessor.process_messages cbW msW
            { stP with consumed := stP.consumed
                ++ [(msW.topic, msW.partition, m1.offset)] } [] :=
  ⟨(consumer_per_message_spec cbW msW stP m2 [] docA .BrokerError 1).1
      (from_serialized_serialize docA) rfl,
    (consumer_per_message_spec cbW msW stP m1 [] docA .BrokerError 1).2
      (from_serialized_serialize docA) rfl⟩
